import Mathlib

/-!
Shallow embedding of the core of `grpc-build` (`src/lib.rs`) and proofs about
it.  Rust strings are modelled as Lean `String` (byte indices of the ASCII
pattern characters used by the code coincide with character indices),
`HashSet<String>` as `List String` with contains-semantics membership, the
filesystem as a function from paths to optional byte contents, and fallible
operations as `Except`.  The external identifier-casing collaborator
(`heck::ToUpperCamelCase`, a dependency crate, not part of this repository)
is passed as an opaque function parameter.
-/

namespace GrpcBuild

/-- The builder configuration, with the fields of `Builder` that
`src/lib.rs` reads: the extern-path set (`HashSet<String>`, modelled as a
membership list) and the `prost_types` flag. -/
structure Builder where
  extern_paths : List String
  prost_types : Bool
deriving DecidableEq, Repr

/-- The part of a `prost_types::FileDescriptorProto` that `src/lib.rs`
reads in `derive_named_messages`: the package name (`descriptor.package()`)
and the names of the top-level messages (`message.name()` for each entry of
`descriptor.message_type`). -/
structure FileDescriptorProto where
  package : String
  message_type : List String
deriving DecidableEq, Repr

/-- A `prost_types::FileDescriptorSet`: its list of file descriptors. -/
structure FileDescriptorSet where
  file : List FileDescriptorProto
deriving DecidableEq, Repr

/-- Rust `str::rmatch_indices(c)` for a `char` pattern: the indices of the
occurrences of `c`, rightmost first. -/
def rmatch_indices (s : List Char) (c : Char) : List Nat :=
  ((List.range s.length).filter (fun i => decide (s.get? i = some c))).reverse

/-- `Builder::include_ident` (src/lib.rs:158-170): false when `pb_ident`
is in `extern_paths` verbatim, or when the prefix of `pb_ident` strictly
before some `'.'` occurrence is in `extern_paths`; true otherwise. -/
def include_ident (extern_paths : List String) (pb_ident : String) : Bool :=
  if pb_ident ∈ extern_paths then false
  else if (rmatch_indices pb_ident.data '.').any
      (fun idx => decide (String.mk (pb_ident.data.take idx) ∈ extern_paths)) then false
  else true

/-- Rust `str::trim_start_matches(c)` for a `char` pattern: repeatedly
strip the leading character while it equals `c`. -/
def trim_start_matches_char (s : String) (c : Char) : String :=
  String.mk (s.data.dropWhile (fun x => decide (x = c)))

/-- Rust `str::replace(c, rep)` for a `char` pattern: every occurrence of
`c` is replaced by `rep`. -/
def replace_char (s : String) (c : Char) (rep : String) : String :=
  String.mk ((s.data.map (fun x => if x = c then rep.data else [x])).flatten)

/-- Rust `str::trim_start_matches("::")`: repeatedly strip a leading
`"::"` occurrence. -/
def trim_start_matches_colons : List Char → List Char
  | ':' :: ':' :: rest => trim_start_matches_colons rest
  | s => s

/-- `to_upper_camel` (src/lib.rs:222-231).  `to_upper_camel_case` is the
external `heck::ToUpperCamelCase` collaborator, passed opaquely; the code
then suffixes an underscore when the result is the `Self` Rust keyword,
which is not allowed as a raw identifier. -/
def to_upper_camel (to_upper_camel_case : String → String) (s : String) : String :=
  let ident := to_upper_camel_case s
  if ident = "Self" then ident ++ "_" else ident

/-- `fully_qualified_name` (src/lib.rs:195-198): formats
`"{prefix}{namespace}.{name}"` with an empty prefix for the empty
namespace and `"."` otherwise. -/
def fully_qualified_name (namespc name : String) : String :=
  (if namespc.isEmpty then "" else ".") ++ namespc ++ "." ++ name

/-- `fully_qualified_type_path` (src/lib.rs:200-205): formats
`"{prefix}{namespace}::{name}"` after replacing `'.'` by `"::"` in the
namespace and upper-camel-casing the name, with an empty prefix for the
empty namespace and `"::"` otherwise. -/
def fully_qualified_type_path (to_upper_camel_case : String → String)
    (namespc name : String) : String :=
  (if namespc.isEmpty then "" else "::") ++ replace_char namespc '.' "::"
    ++ "::" ++ to_upper_camel to_upper_camel_case name

/-- The string literal returned by the name accessor that
`derive_named_messages` emits for a message `name` in package `namespc`:
the local variable `message_name = fq_name.trim_start_matches('.')`
(src/lib.rs:180), embedded into the generated `message_name()` body. -/
def message_name_of (namespc name : String) : String :=
  trim_start_matches_char (fully_qualified_name namespc name) '.'

/-- Rust `{:?}` (Debug) formatting of a string, as it appears in the
`derive` text: the string surrounded by double quotes with `'"'` and
`'\\'` escaped (the message names the code quotes are plain identifiers,
so the remaining Debug escapes for control characters do not arise). -/
def debug_quote (s : String) : String :=
  String.mk ('"' :: (s.data.map
    (fun c => if c = '"' then ['\\', '"'] else if c = '\\' then ['\\', '\\'] else [c])).flatten
    ++ ['"'])

/-- The formatted `derive` text of `derive_named_messages`
(src/lib.rs:183-190): an `impl` block for `type_path` whose
`message_name()` function returns the quoted `message_name` literal. -/
def derive_impl (type_path message_name : String) : String :=
  "\nimpl " ++ type_path ++ " \x7b\n    pub fn message_name() -> &\x27static str \x7b\n        "
    ++ debug_quote message_name ++ "\n    \x7d\n\x7d"

/-- `derive_named_messages` (src/lib.rs:174-193): for each top-level
message of the descriptor, the pair of its fully qualified name and the
`derive` text of the name-accessor `impl` block. -/
def derive_named_messages (to_upper_camel_case : String → String)
    (descriptor : FileDescriptorProto) : List (String × String) :=
  descriptor.message_type.map (fun message =>
    let fq_name := fully_qualified_name descriptor.package message
    let fq_type_path := fully_qualified_type_path to_upper_camel_case descriptor.package message
    let type_path := String.mk (trim_start_matches_colons fq_type_path.data)
    (fq_name, derive_impl type_path (message_name_of descriptor.package message)))

/-- `HashSet::insert`: adds the element unless it is already a member. -/
def hash_set_insert (s : List String) (x : String) : List String :=
  if x ∈ s then s else s ++ [x]

/-- The eleven well-known type names inserted by `add_prost_types`
(src/lib.rs:207-219), in source order. -/
def prost_type_names : List String :=
  [".google.protobuf",
   ".google.protobuf.BoolValue",
   ".google.protobuf.BytesValue",
   ".google.protobuf.DoubleValue",
   ".google.protobuf.Empty",
   ".google.protobuf.FloatValue",
   ".google.protobuf.Int32Value",
   ".google.protobuf.Int64Value",
   ".google.protobuf.StringValue",
   ".google.protobuf.UInt32Value",
   ".google.protobuf.UInt64Value"]

/-- `add_prost_types` (src/lib.rs:207-219): inserts the well-known
`.google.protobuf` names into the extern-path set. -/
def add_prost_types (extern_paths : List String) : List String :=
  prost_type_names.foldl hash_set_insert extern_paths

/-- `Builder::generate_impls` (src/lib.rs:100-111): when `prost_types` is
set, first mutates `self.extern_paths` via `add_prost_types`; then
flat-maps `derive_named_messages` over the descriptors in their given
order, keeps the `derive` text of every name passing `include_ident`, and
collects into a single string.  Returns the string together with the
mutated builder (`&mut self`). -/
def generate_impls (to_upper_camel_case : String → String) (b : Builder)
    (file_descriptor_set : FileDescriptorSet) : String × Builder :=
  let b := if b.prost_types
    then { b with extern_paths := add_prost_types b.extern_paths } else b
  (String.join ((file_descriptor_set.file.map
      (derive_named_messages to_upper_camel_case)).flatten.filterMap
    (fun p => if include_ident b.extern_paths p.1 then some p.2 else none)), b)

/-- The builder state after the `prost_types` conditional of
`generate_impls` (src/lib.rs:101-103): `self` with `add_prost_types`
applied to its extern-path set when the flag is set. -/
def builder_after (b : Builder) : Builder :=
  if b.prost_types
    then { b with extern_paths := add_prost_types b.extern_paths } else b

/-- The per-module write step of `Builder::generate_services`
(src/lib.rs:144-153), over a filesystem modelled as a map from paths to
optional byte contents (`None` = file absent): read the previous content;
write exactly when it is absent or differs from `content`.  Returns the
new filesystem and whether a write occurred. -/
def write_if_changed (fs : String → Option (List Nat)) (output_path : String)
    (content : List Nat) : (String → Option (List Nat)) × Bool :=
  let previous_content := fs output_path
  if (previous_content.map (fun p => decide (p ≠ content))).getD true then
    ((fun q => if q = output_path then some content else fs q), true)
  else (fs, false)

/-- An `std::io::Error` kind, as far as the embedded code inspects it. -/
inductive IoError where
  | notFound
  | permissionDenied
  | other (code : Nat)
deriving DecidableEq, Repr

/-- An `anyhow::Error`: an underlying cause plus the chain of `context`
annotations attached on the way up (empty when propagated bare by `?`). -/
structure AnyhowError where
  cause : IoError
  context : List String
deriving DecidableEq, Repr

/-- Rust `Result::unwrap_or`. -/
def result_unwrap_or (r : Except IoError Bool) (dflt : Bool) : Bool :=
  match r with
  | .ok b => b
  | .error _ => dflt

/-- The write decision of src/lib.rs:147-149:
`previous_content.map(|p| p != content).unwrap_or(true)` — any read error,
not only file-not-found, yields `true` (overwrite). -/
def should_write (previous_content : Except IoError (List Nat)) (content : List Nat) : Bool :=
  result_unwrap_or (previous_content.map (fun p => decide (p ≠ content))) true

/-- The per-module step of `generate_services` with explicit read and
write outcomes (src/lib.rs:144-152): if the write decision is taken,
`std::fs::write(output_path, content)?` either succeeds or propagates its
error bare (no context, no path attached); otherwise nothing is written.
Returns whether a write occurred. -/
def write_file_step (previous_content : Except IoError (List Nat)) (content : List Nat)
    (write_result : Except IoError Unit) : Except AnyhowError Bool :=
  if should_write previous_content content then
    match write_result with
    | .ok _ => .ok true
    | .error e => .error ⟨e, []⟩
  else .ok false

/-- An `std::process::Output`: exit status plus captured streams. -/
structure ProcessOutput where
  status : Int
  stdout : List Nat
  stderr : List Nat
deriving DecidableEq, Repr

/-- The tail of `Builder::run_protoc` (src/lib.rs:94-97):
`cmd.output().context("failed to invoke protoc (hint: ...)")?; Ok(())`.
`output_result` is the outcome of spawning the external `protoc` process:
an error only when the process could not be run, and otherwise the
captured `ProcessOutput`, whose exit status the code never inspects. -/
def run_protoc (output_result : Except IoError ProcessOutput) : Except AnyhowError Unit :=
  match output_result with
  | .error e =>
    .error ⟨e, ["failed to invoke protoc (hint: https://docs.rs/prost-build/#sourcing-protoc)"]⟩
  | .ok _ => .ok ()

/-- The distinguishable failures of `Builder::build` (src/lib.rs:18-46). -/
inductive BuildError where
  | already_exists
  | prepare_failed
  | compile_failed
  | refactor_failed
  | append_failed
deriving DecidableEq, Repr

/-- The effect-bearing stages of `Builder::build`, in source order. -/
inductive BuildEffect where
  | prepare_out_dir
  | compile_protos
  | refactor_protos
  | append_impls
deriving DecidableEq, Repr

/-- `Builder::build` (src/lib.rs:18-46) as a trace-producing function:
the force/exists guard runs first and aborts with no effect; afterwards
`prepare_out_dir`, `compile`, `refactor` and the `mod.rs` append run in
order, each stage's external outcome supplied as a parameter, recording
the effects attempted before any failure. -/
def build (force : Bool) (out_dir_exists : Bool)
    (prepare_result : Except IoError Unit) (compile_result : Except IoError String)
    (refactor_result : Except IoError Unit) (append_result : Except IoError Unit) :
    List BuildEffect × Except BuildError Unit :=
  if !force && out_dir_exists then ([], .error .already_exists)
  else match prepare_result with
  | .error _ => ([.prepare_out_dir], .error .prepare_failed)
  | .ok _ => match compile_result with
    | .error _ => ([.prepare_out_dir, .compile_protos], .error .compile_failed)
    | .ok _ => match refactor_result with
      | .error _ => ([.prepare_out_dir, .compile_protos, .refactor_protos],
          .error .refactor_failed)
      | .ok _ => match append_result with
        | .error _ => ([.prepare_out_dir, .compile_protos, .refactor_protos, .append_impls],
            .error .append_failed)
        | .ok _ => ([.prepare_out_dir, .compile_protos, .refactor_protos, .append_impls],
            .ok ())

/-- The identity casing collaborator, used to instantiate the opaque
`heck::ToUpperCamelCase` parameter at concrete inputs. -/
def id_casing : String → String := fun s => s

/-- A concrete one-file filesystem for instantiating the writer. -/
def fs_with_mod_rs : String → Option (List Nat) :=
  fun q => if q = "mod.rs" then some [1, 2] else none

end GrpcBuild

namespace GrpcBuild

lemma mem_foldl_hash_set_insert_of_mem (l : List String) (s : List String) (x : String)
    (h : x ∈ s) : x ∈ l.foldl hash_set_insert s := by
  induction l generalizing s with
  | nil => exact h
  | cons a t ih =>
    apply ih
    unfold hash_set_insert
    by_cases ha : a ∈ s
    · simp [ha, h]
    · simp [ha, List.mem_append, h]

lemma mem_foldl_hash_set_insert_of_mem_list (l : List String) (s : List String) (x : String)
    (h : x ∈ l) : x ∈ l.foldl hash_set_insert s := by
  induction l generalizing s with
  | nil => cases h
  | cons a t ih =>
    rw [List.foldl_cons]
    rcases List.mem_cons.mp h with rfl | hx
    · apply mem_foldl_hash_set_insert_of_mem
      unfold hash_set_insert
      by_cases ha : x ∈ s
      · simp [ha]
      · simp [ha]
    · exact ih _ hx

lemma foldl_hash_set_insert_of_subset (l : List String) (s : List String)
    (h : ∀ y ∈ l, y ∈ s) : l.foldl hash_set_insert s = s := by
  induction l with
  | nil => rfl
  | cons a t ih =>
    have ha : a ∈ s := h a (List.mem_cons_self a t)
    show List.foldl hash_set_insert (hash_set_insert s a) t = s
    rw [hash_set_insert, if_pos ha]
    exact ih (fun y hy => h y (List.mem_cons_of_mem a hy))

lemma add_prost_types_idem (s : List String) :
    add_prost_types (add_prost_types s) = add_prost_types s :=
  foldl_hash_set_insert_of_subset _ _
    (fun _x hx => mem_foldl_hash_set_insert_of_mem_list _ _ _ hx)

lemma generate_impls_eq (to_upper_camel_case : String → String)
    (b : Builder) (fds : FileDescriptorSet) :
    generate_impls to_upper_camel_case b fds =
      (String.join ((fds.file.map (derive_named_messages to_upper_camel_case)).flatten.filterMap
        (fun p => if include_ident (builder_after b).extern_paths p.1
          then some p.2 else none)),
       builder_after b) := rfl

lemma builder_after_false (e : List String) :
    builder_after ⟨e, false⟩ = ⟨e, false⟩ := rfl

lemma builder_after_true (e : List String) :
    builder_after ⟨e, true⟩ = ⟨add_prost_types e, true⟩ := rfl

lemma builder_after_idem (b : Builder) :
    builder_after (builder_after b) = builder_after b := by
  obtain ⟨e, pt⟩ := b
  cases pt
  · rw [builder_after_false, builder_after_false]
  · rw [builder_after_true, builder_after_true, add_prost_types_idem]

lemma mem_rmatch_indices (s : List Char) (c : Char) (i : Nat) :
    i ∈ rmatch_indices s c ↔ s.get? i = some c := by
  unfold rmatch_indices
  rw [List.mem_reverse, List.mem_filter, List.mem_range]
  constructor
  · rintro ⟨-, h⟩
    exact of_decide_eq_true h
  · intro h
    refine ⟨?_, decide_eq_true h⟩
    rcases List.get?_eq_some.mp h with ⟨hlt, -⟩
    exact hlt

lemma include_ident_eq_false_iff (extern_paths : List String) (s : String) :
    include_ident extern_paths s = false ↔
      s ∈ extern_paths ∨
        ∃ i, s.data.get? i = some '.' ∧ String.mk (s.data.take i) ∈ extern_paths := by
  unfold include_ident
  by_cases hmem : s ∈ extern_paths
  · simp [hmem]
  · simp only [hmem, if_false, false_or]
    by_cases hany : (rmatch_indices s.data '.').any
        (fun idx => decide (String.mk (s.data.take idx) ∈ extern_paths)) = true
    · simp only [hany, if_true, true_iff]
      rcases List.any_eq_true.mp hany with ⟨i, hi, hdec⟩
      exact ⟨i, (mem_rmatch_indices _ _ _).mp hi, of_decide_eq_true hdec⟩
    · simp only [hany, if_false]
      constructor
      · intro h
        exact absurd h (by simp)
      · rintro ⟨i, hdot, htake⟩
        exact absurd (List.any_eq_true.mpr
          ⟨i, (mem_rmatch_indices _ _ _).mpr hdot, decide_eq_true htake⟩) hany

end GrpcBuild

/-- C1: `include_ident` returns false iff the name is in the extern set
verbatim or some prefix of the name truncated strictly at a `'.'` boundary
is in the extern set, and true otherwise; in particular for an extern set
holding exactly "a.b" it returns false on "a.b", "a.b.C", "a.b.C.D"
and true on "a.bc", "a.c". -/
theorem GrpcBuild.include_ident_spec :
    (∀ (extern_paths : List String) (s : String),
      GrpcBuild.include_ident extern_paths s = false ↔
        s ∈ extern_paths ∨
          ∃ i, s.data.get? i = some '.' ∧ String.mk (s.data.take i) ∈ extern_paths)
    ∧ GrpcBuild.include_ident ["a.b"] "a.b" = false
    ∧ GrpcBuild.include_ident ["a.b"] "a.b.C" = false
    ∧ GrpcBuild.include_ident ["a.b"] "a.b.C.D" = false
    ∧ GrpcBuild.include_ident ["a.b"] "a.bc" = true
    ∧ GrpcBuild.include_ident ["a.b"] "a.c" = true :=
  ⟨GrpcBuild.include_ident_eq_false_iff, by decide, by decide, by decide, by decide, by decide⟩

/-- C10: for a string containing no `'.'`, `include_ident` returns true iff
the string is not in the extern set verbatim: no registered prefix can
exclude a dot-free name other than by verbatim match. -/
theorem GrpcBuild.include_ident_dot_free (extern_paths : List String) (s : String)
    (h : '.' ∉ s.data) :
    GrpcBuild.include_ident extern_paths s = true ↔ s ∉ extern_paths := by
  have hfalse := GrpcBuild.include_ident_eq_false_iff extern_paths s
  constructor
  · intro htrue hmem
    rw [htrue] at hfalse
    simp only [Bool.true_eq_false, false_iff] at hfalse
    exact hfalse (Or.inl hmem)
  · intro hnmem
    cases hinc : GrpcBuild.include_ident extern_paths s with
    | true => rfl
    | false =>
      rcases hfalse.mp hinc with hmem | ⟨i, hdot, -⟩
      · exact absurd hmem hnmem
      · exact absurd (List.get?_mem hdot) h

/-- Witness for C10 at `extern_paths = ["a"]`, `s = "ab"`. -/
theorem GrpcBuild.include_ident_dot_free_witness :
    GrpcBuild.include_ident ["a"] "ab" = true ↔ "ab" ∉ (["a"] : List String) :=
  GrpcBuild.include_ident_dot_free ["a"] "ab" (by decide)

/-- C2: the name accessor emitted for a message `name` in package
`namespc` returns exactly `namespc ++ "." ++ name`, or just `name` when the
package is empty (for any package and message name not beginning with a
`'.'`, which protobuf package and message names never do).  The returned
literal is `message_name_of`, which takes no identifier-casing
transformation: it is independent of the casing applied to the generated
type path. -/
theorem GrpcBuild.message_name_accessor (namespc name : String)
    (hns : namespc.data.head? ≠ some '.') (hn : name.data.head? ≠ some '.') :
    GrpcBuild.message_name_of namespc name =
      if namespc = "" then name else namespc ++ "." ++ name := by
  unfold GrpcBuild.message_name_of GrpcBuild.trim_start_matches_char
    GrpcBuild.fully_qualified_name
  by_cases hempty : namespc = ""
  · subst hempty
    rw [if_pos (rfl : ("" : String) = "")]
    have h0 : (if ("" : String).isEmpty then ("" : String) else ".") = "" := by decide
    rw [h0]
    apply String.ext
    simp only [String.data_append]
    show (([] : List Char) ++ [] ++ ['.'] ++ name.data).dropWhile (fun x => decide (x = '.'))
      = name.data
    cases hd : name.data with
    | nil => simp
    | cons c cs =>
      rw [hd] at hn
      simp only [List.head?] at hn
      have hc : c ≠ '.' := fun h => hn (by rw [h])
      simp [List.dropWhile, hc]
  · have hne : namespc.isEmpty = false := by
      cases h : namespc.isEmpty with
      | false => rfl
      | true => exact absurd ((String.isEmpty_iff namespc).mp h) hempty
    simp only [hne, if_neg hempty, Bool.false_eq_true, if_false]
    apply String.ext
    simp only [String.data_append]
    show (['.'] ++ namespc.data ++ ['.'] ++ name.data).dropWhile (fun x => decide (x = '.'))
      = namespc.data ++ ['.'] ++ name.data
    cases hd : namespc.data with
    | nil => exact absurd (String.ext (hd.trans rfl)) hempty
    | cons c cs =>
      rw [hd] at hns
      simp only [List.head?] at hns
      have hc : c ≠ '.' := fun h => hns (by rw [h])
      simp [List.dropWhile, hc]

/-- Witness for C2: a message `HelloReply` in package
`grpc_build.response.helloworld` yields an accessor returning exactly
`"grpc_build.response.helloworld.HelloReply"`. -/
theorem GrpcBuild.message_name_accessor_witness :
    GrpcBuild.message_name_of "grpc_build.response.helloworld" "HelloReply"
      = "grpc_build.response.helloworld.HelloReply" := by
  have h := GrpcBuild.message_name_accessor "grpc_build.response.helloworld" "HelloReply"
    (by decide) (by decide)
  rw [h]
  decide

/-- C9: when the upper-camel-cased form of a name is the reserved keyword
`Self` (which cannot be a raw identifier), `to_upper_camel` disambiguates
it by the fixed deterministic rule of appending an underscore, yielding
`Self_`; every other name is passed through unchanged, never dropped or
renamed unpredictably. -/
theorem GrpcBuild.to_upper_camel_keyword (to_upper_camel_case : String → String) (s : String) :
    (to_upper_camel_case s = "Self" →
      GrpcBuild.to_upper_camel to_upper_camel_case s = "Self_")
    ∧ (to_upper_camel_case s ≠ "Self" →
      GrpcBuild.to_upper_camel to_upper_camel_case s = to_upper_camel_case s) := by
  constructor
  · intro h
    simp only [GrpcBuild.to_upper_camel, h, if_pos rfl]
    decide
  · intro h
    simp only [GrpcBuild.to_upper_camel, if_neg h]

/-- Witness for C9 at a casing collaborator sending `"self"` to `"Self"`. -/
theorem GrpcBuild.to_upper_camel_keyword_witness :
    GrpcBuild.to_upper_camel (fun _ => "Self") "self" = "Self_" :=
  (GrpcBuild.to_upper_camel_keyword (fun _ => "Self") "self").1 rfl

/-- C3 counterexample: the same two package descriptors supplied in the
two orders yield different emitted strings, so emission is not
order-independent. -/
theorem GrpcBuild.generate_impls_order_dependent :
    (GrpcBuild.generate_impls GrpcBuild.id_casing ⟨[], false⟩
        ⟨[⟨"a", ["M"]⟩, ⟨"b", ["N"]⟩]⟩).1
      ≠ (GrpcBuild.generate_impls GrpcBuild.id_casing ⟨[], false⟩
        ⟨[⟨"b", ["N"]⟩, ⟨"a", ["M"]⟩]⟩).1 := by decide

/-- C3 (amended): re-running declaration emission on the same descriptor
list, supplied in the same order, produces byte-identical output — the
extern-path mutation performed by the first run does not change the second
run's output; the output does depend on the supplied order. -/
theorem GrpcBuild.generate_impls_deterministic (to_upper_camel_case : String → String)
    (b : GrpcBuild.Builder) (fds : GrpcBuild.FileDescriptorSet) :
    (GrpcBuild.generate_impls to_upper_camel_case
        ((GrpcBuild.generate_impls to_upper_camel_case b fds).2) fds).1
      = (GrpcBuild.generate_impls to_upper_camel_case b fds).1 := by
  simp only [GrpcBuild.generate_impls_eq, GrpcBuild.builder_after_idem]

/-- C6 counterexample: with `prost_types` set, the extern-path set
consulted by the filter during emission differs from the set present when
the build started. -/
theorem GrpcBuild.generate_impls_mutates_extern_paths :
    (GrpcBuild.generate_impls GrpcBuild.id_casing ⟨[], true⟩ ⟨[]⟩).2.extern_paths
      ≠ (⟨[], true⟩ : GrpcBuild.Builder).extern_paths := by decide

/-- C6 (amended): the extern-path set consulted by the filter equals the
configured set when `prost_types` is unset, and equals the configured set
extended once with the well-known `.google.protobuf` entries when
`prost_types` is set; no other mutation occurs during emission. -/
theorem GrpcBuild.generate_impls_extern_paths_spec (to_upper_camel_case : String → String)
    (b : GrpcBuild.Builder) (fds : GrpcBuild.FileDescriptorSet) :
    ((GrpcBuild.generate_impls to_upper_camel_case b fds).2.prost_types = b.prost_types)
    ∧ (b.prost_types = true →
        (GrpcBuild.generate_impls to_upper_camel_case b fds).2.extern_paths
          = GrpcBuild.add_prost_types b.extern_paths)
    ∧ (b.prost_types = false →
        (GrpcBuild.generate_impls to_upper_camel_case b fds).2 = b) := by
  obtain ⟨e, pt⟩ := b
  cases pt
  · refine ⟨?_, ?_, ?_⟩
    · rw [GrpcBuild.generate_impls_eq, GrpcBuild.builder_after_false]
    · intro h
      exact absurd h (by simp)
    · intro _
      rw [GrpcBuild.generate_impls_eq, GrpcBuild.builder_after_false]
  · refine ⟨?_, ?_, ?_⟩
    · rw [GrpcBuild.generate_impls_eq, GrpcBuild.builder_after_true]
    · intro _
      rw [GrpcBuild.generate_impls_eq, GrpcBuild.builder_after_true]
    · intro h
      exact absurd h (by simp)

/-- Witness for C6's amended claim at a builder with `prost_types`
unset. -/
theorem GrpcBuild.generate_impls_extern_paths_spec_witness :
    (GrpcBuild.generate_impls GrpcBuild.id_casing ⟨["x"], false⟩ ⟨[]⟩).2
      = (⟨["x"], false⟩ : GrpcBuild.Builder) :=
  (GrpcBuild.generate_impls_extern_paths_spec GrpcBuild.id_casing ⟨["x"], false⟩ ⟨[]⟩).2.2 rfl

/-- C4: the idempotent writer writes exactly when the file is absent or
its bytes differ from the new bytes, performs no filesystem mutation when
they are identical, and a second call with the same bytes never writes and
leaves the filesystem untouched. -/
theorem GrpcBuild.write_if_changed_spec (fs : String → Option (List Nat))
    (p : String) (c : List Nat) :
    ((GrpcBuild.write_if_changed fs p c).2 = true ↔ (fs p = none ∨ fs p ≠ some c))
    ∧ (fs p = some c → GrpcBuild.write_if_changed fs p c = (fs, false))
    ∧ ((GrpcBuild.write_if_changed fs p c).1 p = some c)
    ∧ ((GrpcBuild.write_if_changed (GrpcBuild.write_if_changed fs p c).1 p c).2 = false)
    ∧ ((GrpcBuild.write_if_changed (GrpcBuild.write_if_changed fs p c).1 p c).1
        = (GrpcBuild.write_if_changed fs p c).1) := by
  have hstep : ∀ (g : String → Option (List Nat)), g p = some c →
      GrpcBuild.write_if_changed g p c = (g, false) := by
    intro g hg
    unfold GrpcBuild.write_if_changed
    simp [hg]
  cases hfs : fs p with
  | none =>
    have hw : GrpcBuild.write_if_changed fs p c
        = ((fun q => if q = p then some c else fs q), true) := by
      unfold GrpcBuild.write_if_changed
      simp [hfs]
    refine ⟨by simp [hw, hfs], by simp [hfs], ?_, ?_, ?_⟩
    · simp [hw]
    · rw [hw, hstep _ (by simp)]
    · rw [hw, hstep _ (by simp)]
  | some b =>
    by_cases hbc : b = c
    · subst hbc
      have hw := hstep fs hfs
      refine ⟨by simp [hw, hfs], fun _ => hw, ?_, ?_, ?_⟩
      · rw [hw]
        exact hfs
      · rw [hw, hstep fs hfs]
      · rw [hw, hstep fs hfs]
    · have hw : GrpcBuild.write_if_changed fs p c
          = ((fun q => if q = p then some c else fs q), true) := by
        unfold GrpcBuild.write_if_changed
        simp [hfs, hbc]
      refine ⟨?_, ?_, ?_, ?_, ?_⟩
      · simp only [hw, hfs]
        constructor
        · intro _
          right
          intro hsome
          exact hbc (Option.some.inj hsome)
        · intro _
          trivial
      · intro hsome
        exact absurd (Option.some.inj hsome) hbc
      · simp [hw]
      · rw [hw, hstep _ (by simp)]
      · rw [hw, hstep _ (by simp)]

/-- Witness for C4 at a one-file filesystem already holding the bytes
being written. -/
theorem GrpcBuild.write_if_changed_spec_witness :
    GrpcBuild.write_if_changed GrpcBuild.fs_with_mod_rs "mod.rs" [1, 2]
      = (GrpcBuild.fs_with_mod_rs, false) :=
  (GrpcBuild.write_if_changed_spec GrpcBuild.fs_with_mod_rs "mod.rs" [1, 2]).2.1 (by decide)

/-- C5 counterexample: a read error other than file-not-found is not
fatal: the writer treats it as "contents changed" and performs the write,
returning success instead of aborting the build. -/
theorem GrpcBuild.write_file_step_read_error_not_fatal :
    GrpcBuild.write_file_step (.error .permissionDenied) [1] (.ok ())
      = .ok true := rfl

/-- C5 (amended): every write error is fatal and propagated to the caller,
though bare, without the offending path attached; read errors — including
those other than file-not-found — are never fatal in this step: any read
error makes the writer attempt an overwrite. -/
theorem GrpcBuild.write_file_step_error_spec :
    (∀ (previous_content : Except GrpcBuild.IoError (List Nat)) (content : List Nat)
        (e : GrpcBuild.IoError),
      GrpcBuild.should_write previous_content content = true →
        GrpcBuild.write_file_step previous_content content (.error e)
          = .error ⟨e, []⟩)
    ∧ (∀ (err : GrpcBuild.IoError) (content : List Nat),
        GrpcBuild.should_write (.error err) content = true) := by
  constructor
  · intro previous_content content e h
    unfold GrpcBuild.write_file_step
    rw [h]
    rfl
  · intro err content
    rfl

/-- Witness for C5's amended claim: a failing write on changed content
propagates the error with no context attached. -/
theorem GrpcBuild.write_file_step_error_spec_witness :
    GrpcBuild.write_file_step (.ok [2]) [1] (.error .permissionDenied)
      = .error ⟨.permissionDenied, []⟩ :=
  GrpcBuild.write_file_step_error_spec.1 (.ok [2]) [1] .permissionDenied (by decide)

/-- C7: `run_protoc` never inspects the exit status of a completed
`protoc` process — a run that exits unsuccessfully (for any status and any
stderr) still yields `Ok(())`, so the build proceeds as if compilation
succeeded; only a failure to spawn the process is surfaced, annotated with
the dependency hint. -/
theorem GrpcBuild.run_protoc_ignores_exit_status :
    (∀ (status : Int) (so se : List Nat),
      GrpcBuild.run_protoc (.ok ⟨status, so, se⟩) = .ok ())
    ∧ GrpcBuild.run_protoc (.ok ⟨1, [], [101]⟩) = .ok ()
    ∧ (∀ e : GrpcBuild.IoError, GrpcBuild.run_protoc (.error e)
        = .error ⟨e,
          ["failed to invoke protoc (hint: https://docs.rs/prost-build/#sourcing-protoc)"]⟩) :=
  ⟨fun _ _ _ => rfl, rfl, fun _ => rfl⟩

/-- C8: when the output location exists and `force` is false, `build`
fails with the already-exists error before performing any effect; when
`force` is true or the location does not exist, the precondition check
never fails, whatever the later stages do. -/
theorem GrpcBuild.build_precondition_spec :
    (∀ (prepare_result : Except GrpcBuild.IoError Unit)
        (compile_result : Except GrpcBuild.IoError String)
        (refactor_result append_result : Except GrpcBuild.IoError Unit),
      GrpcBuild.build false true prepare_result compile_result refactor_result append_result
        = ([], .error .already_exists))
    ∧ (∀ (out_dir_exists : Bool) (pr : Except GrpcBuild.IoError Unit)
        (cr : Except GrpcBuild.IoError String)
        (rr ar : Except GrpcBuild.IoError Unit),
      (GrpcBuild.build true out_dir_exists pr cr rr ar).2 ≠ .error .already_exists)
    ∧ (∀ (force : Bool) (pr : Except GrpcBuild.IoError Unit)
        (cr : Except GrpcBuild.IoError String)
        (rr ar : Except GrpcBuild.IoError Unit),
      (GrpcBuild.build force false pr cr rr ar).2 ≠ .error .already_exists) := by
  refine ⟨fun pr cr rr ar => rfl, ?_, ?_⟩
  · intro ex pr cr rr ar
    cases pr <;> cases cr <;> cases rr <;> cases ar <;> simp [GrpcBuild.build]
  · intro fc pr cr rr ar
    cases fc <;> cases pr <;> cases cr <;> cases rr <;> cases ar <;> simp [GrpcBuild.build]

/-- Witness for C8 at concrete stage outcomes: with `force` set and the
output directory existing, the precondition error is not raised. -/
theorem GrpcBuild.build_precondition_spec_witness :
    (GrpcBuild.build true true (.ok ()) (.ok "") (.ok ()) (.ok ())).2
      ≠ .error .already_exists :=
  GrpcBuild.build_precondition_spec.2.1 true (.ok ()) (.ok "") (.ok ()) (.ok ())
